import Mathlib

/-!
Shallow embedding of the EmpathAI memory/persona/prompt subsystem
(`app/memory/memory_manager.py`, `app/prompt/enhancer.py`, `fixed_backend.py`,
`ai_backend.py`) and proofs about it.

Modelling conventions:
* Python `datetime` values are integers (seconds); `timedelta(days=d)` is `86400 * d`.
* Python `float` confidences/importances are rationals (every literal in the
  source is exactly representable, and `0.5 * 0.8 == 0.4` holds in IEEE floats
  exactly as it does in `ℚ`).
* The MD5 content hash is modelled by the injective pre-image string
  `user_id ++ ":" ++ lower(strip(content))` that the source feeds to MD5.
* SQLAlchemy tables are lists of records in insertion order; `query(...).first()`
  is `List.find?`; in-place mutation of a fetched row is `updateFirst`.
* Python dicts (insertion ordered) are association lists; assignment keeps the
  position of an existing key.
-/

/-- Apostrophe as a one-character string (used to build source string literals). -/
def apoStr : String := ⟨[ '\'' ]⟩

/-- Does `hay` start with `needle` (on character lists)? -/
def seqStarts : List Char → List Char → Bool
  | [], _ => true
  | _ :: _, [] => false
  | a :: as, b :: bs => a == b && seqStarts as bs

/-- Python `needle in hay` substring test. -/
def strContains (hay needle : String) : Bool :=
  hay.data.tails.any (fun t => seqStarts needle.data t)

/-- Python `s.startswith(pre)`. -/
def startsWithStr (s pre : String) : Bool :=
  seqStarts pre.data s.data

/-- Python `s.lower()` (ASCII, which covers every keyword in the source). -/
def lowerStr (s : String) : String :=
  ⟨s.data.map Char.toLower⟩

/-- Python `s.upper()`. -/
def upperStr (s : String) : String :=
  ⟨s.data.map Char.toUpper⟩

/-- Python `s.strip()`. -/
def trimStr (s : String) : String :=
  ⟨((s.data.dropWhile Char.isWhitespace).reverse.dropWhile Char.isWhitespace).reverse⟩

/-- Python `s.split()` (split on whitespace runs, no empty parts). -/
def pySplitWs (s : String) : List String :=
  ((s.data.splitOnP Char.isWhitespace).map (fun l => (⟨l⟩ : String))).filter (· ≠ "")

/-- Python `s.split("\n")`. -/
def linesOf (s : String) : List String :=
  (s.data.splitOnP (· == '\n')).map (fun l => (⟨l⟩ : String))

/-- Mutate the first element satisfying `p` (SQLAlchemy: fetch row, assign fields). -/
def updateFirst {α : Type} (p : α → Bool) (f : α → α) : List α → List α
  | [] => []
  | a :: as => if p a then f a :: as else a :: updateFirst p f as

/-- Python dict lookup `d.get(k)` on an insertion-ordered association list. -/
def dictGet {β : Type} (d : List (String × β)) (k : String) : Option β :=
  (d.find? (fun kv => kv.1 == k)).map (·.2)

/-- Python dict assignment `d[k] = v`: overwrite in place, else append. -/
def dictSet {β : Type} (d : List (String × β)) (k : String) (v : β) : List (String × β) :=
  if d.any (fun kv => kv.1 == k) then
    d.map (fun kv => if kv.1 == k then (kv.1, v) else kv)
  else d ++ [(k, v)]

/-- Python `l[-n:]`. -/
def lastN {α : Type} (n : Nat) (l : List α) : List α :=
  l.drop (l.length - n)

/-- Sort with a boolean comparison (models SQL `ORDER BY`). -/
def sortB {α : Type} (cmp : α → α → Bool) (l : List α) : List α :=
  List.insertionSort (fun a b => cmp a b = true) l

/-! ## Memory category table (`MemoryManager._init_memory_categories`) -/

structure CategoryConfig where
  name : String
  keywords : List String
  lifespan_days : Nat
  priority : String
deriving DecidableEq, Repr

/-- The ordered category table from `_init_memory_categories` (Python dicts keep
insertion order, which is the tie-break order of every loop over it). -/
def memory_categories : List CategoryConfig :=
  [ ⟨"preference", ["like", "love", "enjoy", "favorite", "prefer", "hate", "dislike", "fond of"],
      365, "high"⟩,
    ⟨"fact", ["am", ⟨[ '\'', 'm' ]⟩, "have", "work", "study", "live", "born", "age", "from"],
      730, "medium"⟩,
    ⟨"experience", ["went to", "visited", "experienced", "happened", "once"], 180, "medium"⟩,
    ⟨"goal", ["want to", "plan to", "goal", "aspire", "dream", "hope to"], 90, "high"⟩,
    ⟨"emotion", ["feel", "felt", "emotion", "happy", "sad", "angry", "excited"], 30, "low"⟩ ]

/-- Lifespan lookup `self.memory_categories.get(category, {}).get("lifespan_days", 30)`. -/
def lifespan_for (category : String) : Nat :=
  match memory_categories.find? (fun c => c.name == category) with
  | some c => c.lifespan_days
  | none => 30

/-! ## Classifier (`_split_into_sentences`, `_analyze_text_for_memories`) -/

/-- Python `re.split(r'[.!?]+', text)` followed by strip-and-drop-empties. -/
def split_into_sentences (text : String) : List String :=
  ((text.data.splitOnP (fun c => c == '.' || c == '!' || c == '?')).map
    (fun l => trimStr ⟨l⟩)).filter (· ≠ "")

/-- Confidence assignment of `_analyze_text_for_memories` given the lowercased sentence. -/
def conf_for (source : String) (sentence_lower : String) : ℚ :=
  if source == "user" then
    if startsWithStr sentence_lower "i " || strContains sentence_lower "my " then mkRat 9 10
    else mkRat 3 5
  else mkRat 1 2

/-- Inner keyword loop: `for keyword in config["keywords"]: if keyword in sentence_lower: ... break`. -/
def scan_keywords : List String → String → Bool
  | [], _ => false
  | k :: ks, sl => if strContains sl k then true else scan_keywords ks sl

/-- Category loop of `_analyze_text_for_memories` over one sentence.  The `break`
in the source exits only the keyword loop, so scanning continues with the next
category. -/
def analyze_sentence : List CategoryConfig → String → String → List (String × String × ℚ)
  | [], _, _ => []
  | c :: cs, sentence, source =>
    let sl := lowerStr sentence
    (if scan_keywords c.keywords sl then [(c.name, trimStr sentence, conf_for source sl)] else [])
      ++ analyze_sentence cs sentence source

/-- `MemoryManager._analyze_text_for_memories(text, source)`. -/
def analyze_text_for_memories (text source : String) : List (String × String × ℚ) :=
  ((split_into_sentences text).map (fun s => analyze_sentence memory_categories s source)).flatten

/-- `MemoryManager._categorize_memory(content, memory_type)`. -/
def categorize_memory (content memory_type : String) : String :=
  let content_lower := lowerStr content
  match memory_categories.find? (fun c => c.keywords.any (fun k => strContains content_lower k)) with
  | some c => c.name
  | none =>
    match memory_type with
    | "preference" => "preference"
    | "fact" => "fact"
    | "experience" => "experience"
    | "goal" => "goal"
    | "emotion" => "emotion"
    | _ => "general"

/-! ## Memory store (`LongTermMemory` rows, `store_memory`, `get_relevant_memories`,
`cleanup_old_memories`) -/

/-- `calculate_memory_hash`: MD5 of `f"{user_id}:{content.lower().strip()}"`,
modelled by the (injective) pre-image string itself. -/
def calculate_memory_hash (user_id content : String) : String :=
  user_id ++ ":" ++ trimStr (lowerStr content)

/-- A `LongTermMemory` row (columns the memory manager reads or writes). -/
structure MemRec where
  id : Nat
  user_id : String
  memory_type : String
  category : String
  content : String
  memory_hash : String
  confidence : ℚ
  importance : ℚ
  source_conversation : Option String
  access_count : Nat
  is_active : Bool
  created_at : Int
  updated_at : Int
  last_accessed : Option Int
  expires_at : Option Int
deriving DecidableEq, Repr

/-- The dictionary built by `_memory_to_dict` (ORM paths) or by the pgvector row
mapping (semantic path); fields absent from one of the two shapes are `Option`. -/
structure MemDict where
  id : Nat
  content : String
  mtype : String
  category : String
  confidence : ℚ
  importance : Option ℚ
  created_at : Option Int
  access_count : Option Nat
  source : Option (Option String)
  relevance_score : Option ℚ
deriving DecidableEq, Repr

/-- Entry written into `self.memory_cache` by `store_memory`. -/
structure StoreCacheEntry where
  content : String
  mtype : String
  category : String
  confidence : ℚ
  timestamp : Int
deriving DecidableEq, Repr

/-- Values held by `self.memory_cache`: per-memory entries under `"{user}:{id}"`
(written by `store_memory`, with a numeric suffix, so they can never collide with
a `"{user}:recent"` key) and cached result lists under `"{user}:recent"`. -/
inductive CacheVal where
  | single : StoreCacheEntry → CacheVal
  | recent : List MemDict → CacheVal
deriving DecidableEq, Repr

/-- Database table plus the manager's in-process cache. -/
structure StoreState where
  rows : List MemRec
  next_id : Nat
  cache : List (String × CacheVal)
deriving DecidableEq, Repr

/-- `_memory_to_dict`. -/
def memory_to_dict (m : MemRec) : MemDict :=
  { id := m.id, content := m.content, mtype := m.memory_type, category := m.category,
    confidence := m.confidence, importance := some m.importance,
    created_at := some m.created_at, access_count := some m.access_count,
    source := some m.source_conversation, relevance_score := none }

/-- The merge applied by `store_memory` when a record with the same hash exists:
confidence/importance move to the max, `updated_at` refreshes, access count
increments (`x + 1 if x else 1`). -/
def merge_memory (confidence importance : ℚ) (now : Int) (m : MemRec) : MemRec :=
  { m with confidence := max m.confidence confidence,
           importance := max m.importance importance,
           updated_at := now,
           access_count := if m.access_count ≠ 0 then m.access_count + 1 else 1 }

/-- The fresh row inserted by `store_memory`: category resolved (explicit or via
the keyword table), access count 1, expiry = now + category lifespan in days. -/
def insert_memory (id : Nat) (user_id memory_type content : String) (confidence : ℚ)
    (source_conversation : Option String) (category : Option String) (importance : ℚ)
    (now : Int) : MemRec :=
  let cat := category.getD (categorize_memory content memory_type)
  { id := id, user_id := user_id, memory_type := memory_type, category := cat,
    content := content, memory_hash := calculate_memory_hash user_id content,
    confidence := confidence, importance := importance,
    source_conversation := source_conversation,
    access_count := 1, is_active := true, created_at := now, updated_at := now,
    last_accessed := none,
    expires_at := some (now + 86400 * (lifespan_for cat : Int)) }

/-- `MemoryManager.store_memory`: dedup by hash, merge-or-insert. -/
def store_memory (st : StoreState) (user_id memory_type content : String) (confidence : ℚ)
    (source_conversation : Option String) (category : Option String) (importance : ℚ)
    (now : Int) : Option MemRec × StoreState :=
  let memory_hash := calculate_memory_hash user_id content
  match st.rows.find? (fun m => m.user_id == user_id && m.memory_hash == memory_hash) with
  | some existing =>
    let rows' := updateFirst
      (fun m => m.user_id == user_id && m.memory_hash == memory_hash)
      (merge_memory confidence importance now) st.rows
    (some (merge_memory confidence importance now existing), { st with rows := rows' })
  | none =>
    let memory := insert_memory st.next_id user_id memory_type content confidence
      source_conversation category importance now
    let cat := category.getD (categorize_memory content memory_type)
    let cache1 := dictSet st.cache (user_id ++ ":" ++ toString st.next_id)
      (CacheVal.single ⟨content, memory_type, cat, confidence, now⟩)
    let cache2 := if cache1.length > 1000 then cache1.drop 1 else cache1
    (some memory, { rows := st.rows ++ [memory], next_id := st.next_id + 1, cache := cache2 })

/-- Eligibility filter of `get_relevant_memories` (`base_query`):
active, confident enough, unexpired-or-no-expiry. -/
def memoryEligible (user_id : String) (min_confidence : ℚ) (now : Int) (m : MemRec) : Bool :=
  m.user_id == user_id && m.is_active && decide (min_confidence ≤ m.confidence) &&
    (match m.expires_at with
     | none => true
     | some e => decide (now < e))

/-- External facts the retrieval code branches on: whether an embedding model
loaded, whether embedding the query succeeded, whether the store is PostgreSQL,
whether the semantic `try` block raises, and the vector distance of each row. -/
structure RetrievalEnv where
  has_embedding_model : Bool
  query_embed_ok : Bool
  is_postgres : Bool
  semantic_raises : Bool
  dist : Nat → ℚ

/-- Python truthiness of the `query` argument (`if not query:`). -/
def queryFalsy (query : Option String) : Bool :=
  match query with
  | none => true
  | some q => q == ""

/-- `ORDER BY importance DESC, updated_at DESC, confidence DESC` (no-query path). -/
def cmp_noquery (a b : MemRec) : Bool :=
  if a.importance ≠ b.importance then decide (b.importance < a.importance)
  else if a.updated_at ≠ b.updated_at then decide (b.updated_at < a.updated_at)
  else decide (b.confidence ≤ a.confidence)

/-- `ORDER BY importance DESC, confidence DESC, access_count DESC` (keyword fallback). -/
def cmp_keyword (a b : MemRec) : Bool :=
  if a.importance ≠ b.importance then decide (b.importance < a.importance)
  else if a.confidence ≠ b.confidence then decide (b.confidence < a.confidence)
  else decide (b.access_count ≤ a.access_count)

/-- `ORDER BY importance DESC, confidence DESC` (exception fallback). -/
def cmp_except (a b : MemRec) : Bool :=
  if a.importance ≠ b.importance then decide (b.importance < a.importance)
  else decide (b.confidence ≤ a.confidence)

/-- `ilike` match of the query against content, category and memory type. -/
def keyword_match (q : String) (m : MemRec) : Bool :=
  strContains (lowerStr m.content) (lowerStr q) ||
  strContains (lowerStr m.category) (lowerStr q) ||
  strContains (lowerStr m.memory_type) (lowerStr q)

/-- Row dict produced by the pgvector SQL path (`relevance_score = 1 - distance`). -/
def semantic_dict (env : RetrievalEnv) (m : MemRec) : MemDict :=
  { id := m.id, content := m.content, mtype := m.memory_type, category := m.category,
    confidence := m.confidence, importance := none, created_at := none,
    access_count := none, source := none, relevance_score := some (1 - env.dist m.id) }

/-- The cache fast path of `get_relevant_memories`: when `query` is falsy and
`"{user}:recent"` is cached, the cached list is returned as-is. -/
def isFastHit (st : StoreState) (user_id : String) (query : Option String) :
    Option (List MemDict) :=
  if queryFalsy query then
    match dictGet st.cache (user_id ++ ":recent") with
    | some (CacheVal.recent l) => some l
    | _ => none
  else none

/-- Result-list selection of `get_relevant_memories` (all four non-cache paths). -/
def select_memories (st : StoreState) (env : RetrievalEnv) (user_id : String)
    (query : Option String) (limit : Nat) (min_confidence : ℚ) (now : Int) : List MemDict :=
  let eligibleRows := st.rows.filter (memoryEligible user_id min_confidence now)
  if !(queryFalsy query) && env.has_embedding_model then
    if env.semantic_raises then
      ((sortB cmp_except eligibleRows).take limit).map memory_to_dict
    else
      let sem :=
        if env.query_embed_ok && env.is_postgres then
          ((sortB (fun a b => decide (env.dist a.id ≤ env.dist b.id))
              (st.rows.filter (fun m => m.user_id == user_id && m.is_active &&
                decide (min_confidence ≤ m.confidence)))).take limit).map (semantic_dict env)
        else []
      if sem.isEmpty then
        ((sortB cmp_keyword (eligibleRows.filter (keyword_match (query.getD "")))).take
          limit).map memory_to_dict
      else sem
  else
    ((sortB cmp_noquery eligibleRows).take limit).map memory_to_dict

/-- Access bookkeeping applied to every returned record. -/
def bumpAccess (now : Int) (m : MemRec) : MemRec :=
  { m with access_count := m.access_count + 1, last_accessed := some now }

/-- `MemoryManager.get_relevant_memories`. -/
def get_relevant_memories (st : StoreState) (env : RetrievalEnv) (user_id : String)
    (query : Option String) (limit : Nat) (min_confidence : ℚ) (now : Int) :
    List MemDict × StoreState :=
  match isFastHit st user_id query with
  | some cached => (cached, st)
  | none =>
    let memories := select_memories st env user_id query limit min_confidence now
    let rows' := (memories.map (·.id)).foldl
      (fun acc i => updateFirst (fun m => m.id == i) (bumpAccess now) acc) st.rows
    let cache' := if queryFalsy query then
        dictSet st.cache (user_id ++ ":recent") (CacheVal.recent memories)
      else st.cache
    (memories, { st with rows := rows', cache := cache' })

/-- `MemoryManager.extract_and_store_memories` (returns `stored_count` and the state). -/
def extract_and_store_memories (st : StoreState) (user_id user_message ai_response : String)
    (conversation_id : Option String) (now : Int) : Nat × StoreState :=
  let user_mems := analyze_text_for_memories user_message "user"
  let ai_mems := (analyze_text_for_memories ai_response "ai").map
    (fun t => (t.1, t.2.1, t.2.2 * mkRat 4 5))
  let memories_to_store := user_mems ++ ai_mems
  memories_to_store.foldl
    (fun acc t =>
      if t.2.2 > mkRat 2 5 then
        let r := store_memory acc.2 user_id t.1 t.2.1 t.2.2 conversation_id none (mkRat 1 2) now
        ((match r.1 with | some _ => acc.1 + 1 | none => acc.1), r.2)
      else acc)
    (0, st)

/-- Archive condition of `cleanup_old_memories`: stale and low-confidence and active. -/
def arch_pred (now : Int) (days_old : Nat) (m : MemRec) : Bool :=
  decide (m.updated_at < now - 86400 * (days_old : Int)) &&
  decide (m.confidence < mkRat 3 10) && m.is_active

/-- Expiry condition of `cleanup_old_memories` (`expires_at < now`; SQL `NULL`
comparisons are false). -/
def expired_pred (now : Int) (m : MemRec) : Bool :=
  match m.expires_at with
  | some e => decide (e < now)
  | none => false

/-- `MemoryManager.cleanup_old_memories`: returns the surviving rows and the
`(archived, deleted)` counts.  Every session factory in the repository sets
`autoflush=False` (postgres.py, sqlite.py, empathai_full.py), so the
deactivations of the first loop are NOT flushed before the expiry query runs:
its SQL sees the original `is_active` values, and a row that is both archivable
and expired is counted in both totals and deleted (the in-memory deactivation of
such a row is then moot).  Survivors that were archivable keep their in-memory
`is_active = False`, written out by the final commit. -/
def cleanup_old_memories (rows : List MemRec) (now : Int) (days_old : Nat) :
    List MemRec × Nat × Nat :=
  let archived_count := (rows.filter (arch_pred now days_old)).length
  let deleted_count := (rows.filter (fun m => expired_pred now m && m.is_active)).length
  let rows2 := (rows.filter (fun m => !(expired_pred now m && m.is_active))).map
    (fun m => if arch_pred now days_old m then { m with is_active := false } else m)
  (rows2, archived_count, deleted_count)

/-! ## Persona adaptation (`update_persona_from_conversation`) -/

/-- `PersonaSettings` columns touched by the adaptation pass. -/
structure PersonaSettings where
  preferred_tone : String
  communication_style : String
  topics_of_interest : List String
  dislikes : List String
  trust_level : Nat
deriving DecidableEq, Repr

/-- Topic keyword table of `update_persona_from_conversation`. -/
def topic_keywords : List (String × List String) :=
  [ ("technology", ["code", "program", "computer", "tech", "software", "ai", "machine learning"]),
    ("art", ["art", "paint", "draw", "design", "creative", "music", "photo"]),
    ("sports", ["sport", "game", "team", "play", "exercise", "fitness"]),
    ("science", ["science", "research", "discover", "experiment", "theory"]),
    ("business", ["business", "work", "job", "career", "company", "market"]) ]

def emotional_words : List String := ["love", "hate", "excited", "angry", "happy", "sad"]
def casual_words : List String := ["hey", "yo", "lol", "haha", "omg"]
def formal_words : List String := ["please", "thank you", "sincerely", "regards"]

/-- `update_persona_from_conversation(db, user_id, conversation_history)`;
the history is modelled as the list of message contents (`msg.get("content", "")`).
`list(set(...))` is modelled by `List.dedup` (the Python order is arbitrary;
only membership is observable to the claims). -/
def update_persona_from_conversation (s : PersonaSettings) (conversation_history : List String) :
    PersonaSettings :=
  let all_messages := String.intercalate " " conversation_history
  let all_messages_lower := lowerStr all_messages
  let detected_topics := topic_keywords.filterMap (fun tk =>
    if tk.2.any (fun k => strContains all_messages_lower k) &&
        !(s.topics_of_interest.contains tk.1) then
      some tk.1
    else none)
  let topics' := if detected_topics.isEmpty then s.topics_of_interest
    else (s.topics_of_interest ++ detected_topics).dedup
  let emotional_count := (emotional_words.filter (fun w => strContains all_messages_lower w)).length
  let casual_count := (casual_words.filter (fun w => strContains all_messages_lower w)).length
  let formal_count := (formal_words.filter (fun w => strContains all_messages_lower w)).length
  let tone' := if casual_count > formal_count && casual_count > 2 then "casual"
    else if formal_count > casual_count && formal_count > 2 then "formal"
    else if emotional_count > 3 then "empathetic"
    else s.preferred_tone
  let conversation_count := conversation_history.length
  let trust' := if conversation_count > 20 then min 100 (s.trust_level + 10) else s.trust_level
  { s with preferred_tone := tone', topics_of_interest := topics', trust_level := trust' }

/-! ## Chat backends (`fixed_backend.chat`, `ai_backend.chat`)

The external generation call is an `Except Unit String` input: `.ok text` is a
successful Groq completion, `.error ()` a timeout or provider rejection.
`datetime.now().isoformat()` and the generated session stamp are parameters. -/

structure ChatRequest where
  user_id : String
  message : String
  session_id : Option String
deriving DecidableEq, Repr

structure ChatResponse where
  response : String
  user_id : String
  emotion_detected : String
  memories_used : Nat
  tone : String
  model_used : String
  session_id : String
  timestamp : String
deriving DecidableEq, Repr

structure FixedUser where
  created_at : String
  conversations : Nat
  last_active : String
deriving DecidableEq, Repr

structure FixedMem where
  content : String
  mtype : String
  timestamp : String
deriving DecidableEq, Repr

/-- `users_db` and `memories_db` of `fixed_backend.py`. -/
structure FixedState where
  users_db : List (String × FixedUser)
  memories_db : List (String × List FixedMem)
deriving DecidableEq, Repr

/-- Fallback reply text of `fixed_backend.chat`. -/
def fixedFallbackText : String :=
  "I" ++ apoStr ++ "m here to chat with you! Tell me about your day."

/-- Emotion/tone detection inside `fixed_backend.chat`. -/
def fixed_detect (message : String) : String × String :=
  let tl := lowerStr message
  if ["happy", "joy", "love", "great"].any (fun w => strContains tl w) then ("joy", "cheerful")
  else if ["sad", "upset", "angry", "bad"].any (fun w => strContains tl w) then
    ("sadness", "empathetic")
  else ("neutral", "friendly")

/-- `fixed_backend.chat`: the whole body is one `try`; a generation failure jumps
to the `except` handler, so every statement after the Groq call (including the
`memories_db` write) is skipped, while mutations made before it persist. -/
def fixed_chat (st : FixedState) (req : ChatRequest) (nowIso sessionStamp : String)
    (groq : Except Unit String) : ChatResponse × FixedState :=
  let st1 := if st.users_db.any (fun kv => kv.1 == req.user_id) then st
    else { st with users_db := st.users_db ++ [(req.user_id, ⟨nowIso, 0, nowIso⟩)] }
  -- when the key already exists, `memories` aliases the stored list and the
  -- reported count reflects the later append; for a new user it is a fresh
  -- (default) list and stays empty
  let memories := (dictGet st1.memories_db req.user_id).getD []
  let et := fixed_detect req.message
  match groq with
  | .error _ =>
    ({ response := fixedFallbackText, user_id := req.user_id, emotion_detected := "neutral",
       memories_used := 0, tone := "friendly", model_used := "fallback",
       session_id := req.session_id.getD "session_fallback", timestamp := nowIso }, st1)
  | .ok response_text =>
    let st2 := if st1.memories_db.any (fun kv => kv.1 == req.user_id) then st1
      else { st1 with memories_db := st1.memories_db ++ [(req.user_id, [])] }
    let newMems := (dictGet st2.memories_db req.user_id).getD [] ++
      [⟨⟨req.message.data.take 100⟩, "conversation", nowIso⟩]
    let st3 := if (pySplitWs req.message).length > 3 then
        { st2 with memories_db := dictSet st2.memories_db req.user_id newMems }
      else st2
    let bumpUser := fun (u : FixedUser) =>
      { u with conversations := u.conversations + 1, last_active := nowIso }
    let users' := updateFirst (fun kv => kv.1 == req.user_id)
      (fun kv => (kv.1, bumpUser kv.2)) st3.users_db
    let st4 := { st3 with users_db := users' }
    let memories_used := if (dictGet st1.memories_db req.user_id).isSome ∧
        (pySplitWs req.message).length > 3 then memories.length + 1 else memories.length
    ({ response := response_text, user_id := req.user_id, emotion_detected := et.1,
       memories_used := memories_used, tone := et.2, model_used := "llama-3.1-8b-instant",
       session_id := req.session_id.getD sessionStamp, timestamp := nowIso }, st4)

/-- `ai_backend.detect_emotion`. -/
def ai_detect_emotion (text : String) : String :=
  let tl := lowerStr text
  if ["happy", "joy", "love", "great", "excited", "wonderful"].any (fun w => strContains tl w) then
    "joy"
  else if ["sad", "upset", "angry", "bad", "terrible", "depressed"].any
      (fun w => strContains tl w) then
    "sadness"
  else if ["scared", "afraid", "anxious", "worried"].any (fun w => strContains tl w) then "fear"
  else "neutral"

/-- `ai_backend.determine_tone`. -/
def ai_determine_tone (emotion : String) : String :=
  match emotion with
  | "joy" => "cheerful and enthusiastic"
  | "sadness" => "empathetic and supportive"
  | "fear" => "reassuring and gentle"
  | "neutral" => "friendly and curious"
  | _ => "friendly"

/-- Fallback reply text of `ai_backend.chat` when the Groq call raises. -/
def aiFallbackText : String :=
  "I" ++ apoStr ++
    "d love to chat more about that! As a digital artist, I find conversations like this inspiring."

/-- Reply text of `ai_backend.chat` when no Groq client is configured. -/
def aiLocalFallbackText : String :=
  "I" ++ apoStr ++ "m here to chat! Tell me more about yourself. I" ++ apoStr ++
    "m Alex, a digital artist from Portland."

/-- `ai_backend.chat`: the Groq call sits in its own inner `try/except`, so a
generation failure only swaps in the fallback text and `model_used = "fallback"`;
execution continues and the user's message is still stored. -/
def ai_chat (st : List (String × List String)) (req : ChatRequest) (groqConnected : Bool)
    (groq : Except Unit String) (nowIso sessionStamp : String) :
    ChatResponse × List (String × List String) :=
  let st1 := if st.any (fun kv => kv.1 == req.user_id) then st else st ++ [(req.user_id, [])]
  let emotion := ai_detect_emotion req.message
  let tone := ai_determine_tone emotion
  -- `memories` aliases the stored list (the entry was just ensured), so the
  -- reported count reflects the later append; the `[-20:]` cap rebinds the dict
  -- entry to a new list and does not affect the alias
  let memories := (dictGet st1 req.user_id).getD []
  let rm : String × String :=
    if groqConnected then
      match groq with
      | .ok t => (trimStr t, "llama-3.1-8b-instant")
      | .error _ => (aiFallbackText, "fallback")
    else (aiLocalFallbackText, "local_fallback")
  let st2 := if (pySplitWs req.message).length > 3 then
      let l' := (dictGet st1 req.user_id).getD [] ++
        [(⟨req.message.data.take 100⟩ : String) ++ "..."]
      dictSet st1 req.user_id (if l'.length > 20 then lastN 20 l' else l')
    else st1
  let memories_used := if (pySplitWs req.message).length > 3 then memories.length + 1
    else memories.length
  ({ response := rm.1, user_id := req.user_id, emotion_detected := emotion,
     memories_used := memories_used, tone := tone, model_used := rm.2,
     session_id := req.session_id.getD sessionStamp, timestamp := nowIso }, st2)

/-! ## Prompt composer (`app/prompt/enhancer.py`) -/

/-- Argument dict for one memory passed to `build_prompt` (`.get` with defaults). -/
structure MemoryArg where
  content : Option String := none
  category : Option String := none
  confidence : ℚ := 1
deriving DecidableEq, Repr

/-- One history message dict. -/
structure HistMsg where
  role : Option String := none
  content : Option String := none
  sentiment : Option String := none
deriving DecidableEq, Repr

/-- Persona dict passed to `build_prompt` (`.get` with defaults). -/
structure PersonaArg where
  name : Option String := none
  age : Option Nat := none
  background : Option String := none
  personality_traits : Option (List String) := none
  preferred_tone : Option String := none
  communication_style : Option String := none
  formality_level : Option Nat := none
  friendliness : Option Nat := none
  curiosity : Option Nat := none
  humor_level : Option Nat := none
deriving DecidableEq, Repr

/-- `self.persona_template.format(...)` of `PromptEnhancer.build_prompt`. -/
def persona_section (p : PersonaArg) : String :=
  "\nYou are " ++ p.name.getD "Alex" ++ ", a " ++ toString (p.age.getD 28) ++ "-year-old " ++
  p.background.getD "digital artist from Portland" ++ ". \n" ++
  "You are having a natural conversation with a friend.\n\nPERSONALITY TRAITS:\n" ++
  String.intercalate ", " (p.personality_traits.getD ["friendly", "creative", "curious"]) ++
  "\n\nCONVERSATION STYLE:\n- Tone: " ++ p.preferred_tone.getD "casual" ++
  "\n- Communication style: " ++ p.communication_style.getD "balanced" ++
  "\n- Formality: " ++ toString (p.formality_level.getD 3) ++ "/5" ++
  "\n- Friendliness: " ++ toString (p.friendliness.getD 7) ++ "/10" ++
  "\n- Curiosity: " ++ toString (p.curiosity.getD 6) ++ "/10" ++
  "\n- Humor: " ++ toString (p.humor_level.getD 5) ++ "/10" ++
  "\n\nIMPORTANT RULES:\n" ++
  "1. You are HUMAN - NEVER mention being an AI, assistant, or language model\n" ++
  "2. Be consistent with your background and personality\n" ++
  "3. Reference past conversations naturally\n" ++
  "4. Adapt your tone to match the user" ++ apoStr ++ "s emotion\n" ++
  "5. Share personal experiences when relevant\n" ++
  "6. Ask thoughtful questions\n" ++
  "7. Never invent false information about yourself\n        "

/-- Category grouping of the memory section (Python dict, insertion-ordered). -/
def build_categories (memories : List MemoryArg) : List (String × List String) :=
  memories.foldl (fun acc m =>
    let c := m.category.getD "general"
    if acc.any (fun kv => kv.1 == c) then
      acc.map (fun kv => if kv.1 == c then (kv.1, kv.2 ++ [m.content.getD ""]) else kv)
    else acc ++ [(c, [m.content.getD ""])]) []

/-- Memory section of `build_prompt` (at most 3 items per category, bullets
formatted as `- {item}` with no confidence annotation). -/
def memory_section (memories : List MemoryArg) : String :=
  if memories.isEmpty then ""
  else
    "\n\nWHAT YOU KNOW ABOUT THE USER:\n" ++
    String.join ((build_categories memories).map (fun kv =>
      "\n" ++ upperStr kv.1 ++ ":\n" ++
      String.join ((kv.2.take 3).map (fun item => "- " ++ item ++ "\n"))))

/-- History section of `build_prompt` (last 6 messages). -/
def history_section (history : Option (List HistMsg)) : String :=
  match history with
  | none => ""
  | some h =>
    if h.isEmpty then ""
    else
      "\n\nRECENT CONVERSATION:\n" ++
      String.join ((lastN 6 h).map (fun msg =>
        (if msg.role == some "user" then "USER" else "YOU") ++ ": " ++
          msg.content.getD "" ++ "\n"))

/-- `PromptEnhancer._detect_context`. -/
def detect_context (message : String) : String :=
  let ml := lowerStr message
  if ["stress", "anxious", "worried"].any (fun w => strContains ml w) then "stressed"
  else if ["happy", "excited", "joy"].any (fun w => strContains ml w) then "happy"
  else if ["sad", "depressed", "lonely"].any (fun w => strContains ml w) then "sad"
  else if ["angry", "frustrated", "mad"].any (fun w => strContains ml w) then "angry"
  else "neutral"

/-- `PromptEnhancer._calculate_mood`. -/
def calculate_mood (history : List HistMsg) : String :=
  if history.isEmpty then "neutral"
  else
    let sentiments := (lastN 5 history).map (fun m => m.sentiment.getD "neutral")
    let positive := (sentiments.filter (· == "positive")).length
    let negative := (sentiments.filter (· == "negative")).length
    if positive > negative * 2 then "positive"
    else if negative > positive * 2 then "negative"
    else "balanced"

/-- Context section of `build_prompt` (`datetime.now().strftime` is `nowStr`). -/
def context_section (user_message : String) (history : Option (List HistMsg))
    (persona : PersonaArg) (nowStr : String) : String :=
  "\nCURRENT SITUATION:\n- User emotion: " ++ detect_context user_message ++
  "\n- Time of day: " ++ nowStr ++
  "\n- Conversation mood: " ++
  (match history with
   | some h => if h.isEmpty then "neutral" else calculate_mood h
   | none => "neutral") ++
  "\n\nCURRENT MESSAGE FROM USER:\n\"" ++ user_message ++ "\"" ++
  "\n\nYOUR RESPONSE (as " ++ persona.name.getD "Alex" ++ "):\n        "

/-- The `full_prompt` assembly of `build_prompt` before the length check. -/
def assemble_prompt (user_message : String) (memories : List MemoryArg) (persona : PersonaArg)
    (history : Option (List HistMsg)) (nowStr : String) : String :=
  persona_section persona ++ memory_section memories ++ history_section history ++
    context_section user_message history persona nowStr

/-- Line filter of `PromptEnhancer._compress_prompt` with its sticky
`memory_section_started` flag. -/
def compress_lines : List String → Bool → List String
  | [], _ => []
  | line :: rest, started =>
    if strContains line "WHAT YOU KNOW ABOUT THE USER:" then
      line :: compress_lines rest true
    else if started && startsWithStr (trimStr line) "-" then
      (if strContains line "(confidence: 0.8" || strContains line "(confidence: 0.9" then [line]
       else []) ++ compress_lines rest started
    else line :: compress_lines rest started

/-- `PromptEnhancer._compress_prompt`. -/
def compress_prompt (prompt : String) : String :=
  String.intercalate "\n" (compress_lines (linesOf prompt) false)

/-- `PromptEnhancer.build_prompt`. -/
def build_prompt (user_message : String) (memories : List MemoryArg) (persona : PersonaArg)
    (history : Option (List HistMsg)) (nowStr : String) : String :=
  let full_prompt := assemble_prompt user_message memories persona history nowStr
  if (pySplitWs full_prompt).length > 3000 then compress_prompt full_prompt else full_prompt

/-! ## Concrete inputs used by counterexamples and witnesses -/

/-- A 3001-word content string (forces the 3000-word prompt ceiling). -/
def c9_longContent : String := ⟨(List.replicate 3000 ['w', ' ']).foldr (· ++ ·) ['w']⟩

/-- One high-confidence (0.8) preference memory passed to `build_prompt`. -/
def c9_memories : List MemoryArg :=
  [{ content := some c9_longContent, category := some "preference", confidence := mkRat 8 10 }]

/-- Retrieval environment with no embedding model loaded (a supported
configuration of the source: `SentenceTransformer` failed to load). -/
def env0C7 : RetrievalEnv := ⟨false, false, false, false, fun _ => 0⟩

def r1C7 : MemRec :=
  ⟨0, "u", "preference", "preference", "likes tea", "u:likes tea", 1, 1, none, 1, true, 0, 0,
    none, none⟩

def r2C7 : MemRec :=
  ⟨1, "u", "fact", "fact", "works remotely", "u:works remotely", 1, mkRat 1 4, none, 1, true, 0, 0,
    none, none⟩

def st0C7 : StoreState := ⟨[r1C7, r2C7], 2, []⟩

def mC8 : MemRec :=
  ⟨7, "u1", "fact", "fact", "x", "u1:x", mkRat 1 5, mkRat 1 2, none, 1, true, -8640000, -8640000, none, none⟩

/-- An active memory meeting both sweep conditions at `now = 0`: low-confidence
and stale (archivable) and already expired. -/
def mC8x : MemRec :=
  ⟨8, "u1", "fact", "fact", "x2", "u1:x2", mkRat 1 5, mkRat 1 2, none, 1, true, -8640000,
    -8640000, none, some (-1)⟩

/-! ## Helper lemmas -/

theorem scan_keywords_eq_any (ks : List String) (sl : String) :
    scan_keywords ks sl = ks.any (fun k => strContains sl k) := by
  induction ks with
  | nil => rfl
  | cons k ks ih =>
    simp only [scan_keywords, List.any_cons]
    by_cases h : strContains sl k = true
    · simp [h]
    · simp only [Bool.not_eq_true] at h
      simp [h, ih]

theorem analyze_sentence_eq_filter_map (cats : List CategoryConfig) (s source : String) :
    analyze_sentence cats s source =
      (cats.filter (fun c => c.keywords.any (fun k => strContains (lowerStr s) k))).map
        (fun c => (c.name, trimStr s, conf_for source (lowerStr s))) := by
  induction cats with
  | nil => rfl
  | cons c cs ih =>
    simp only [analyze_sentence, List.filter_cons, scan_keywords_eq_any]
    by_cases h : c.keywords.any (fun k => strContains (lowerStr s) k) = true
    · simp [h, ih]
    · simp only [Bool.not_eq_true] at h
      simp [h, ih]

theorem mem_analyze_sentence_conf {cats : List CategoryConfig} {s source : String}
    {tup : String × String × ℚ} (h : tup ∈ analyze_sentence cats s source) :
    tup.2.2 = conf_for source (lowerStr s) := by
  rw [analyze_sentence_eq_filter_map] at h
  obtain ⟨c, -, rfl⟩ := List.mem_map.mp h
  rfl

theorem conf_for_nonuser {source : String} (h : source ≠ "user") (sl : String) :
    conf_for source sl = mkRat 1 2 := by
  simp [conf_for, h]

theorem mem_analyze_text_conf_ai {text : String} {tup : String × String × ℚ}
    (h : tup ∈ analyze_text_for_memories text "ai") : tup.2.2 = mkRat 1 2 := by
  simp only [analyze_text_for_memories, List.mem_flatten, List.mem_map] at h
  obtain ⟨l, ⟨s, -, rfl⟩, hl⟩ := h
  rw [mem_analyze_sentence_conf hl]
  exact conf_for_nonuser (by decide) _

/-! ## C2: classifier emission granularity -/

/-- C2 (counterexample): the single sentence "I love my work" contains trigger
keywords of two categories ("love" → preference, "work" → fact) and the
classifier emits TWO tuples for it, not the one tuple per sentence the claim
asserts. -/
theorem classifier_two_categories_counterexample :
    split_into_sentences "I love my work" = ["I love my work"] ∧
    (analyze_text_for_memories "I love my work" "user").map (fun t => t.1) =
      ["preference", "fact"] := by
  constructor <;> decide

/-- C2 (amended): for every input text and sentence, the classifier emits at most
one tuple per (sentence, category) pair — the `break` stops only the keyword scan
of the current category, so a sentence yields exactly one tuple for each matching
category, in category-table order (not one tuple per sentence). -/
theorem classifier_per_category_first_match (text source : String) :
    analyze_text_for_memories text source =
      ((split_into_sentences text).map (fun s =>
        (memory_categories.filter
            (fun c => c.keywords.any (fun k => strContains (lowerStr s) k))).map
          (fun c => (c.name, trimStr s, conf_for source (lowerStr s))))).flatten := by
  unfold analyze_text_for_memories
  congr 1
  exact List.map_congr_left (fun s _ => analyze_sentence_eq_filter_map memory_categories s source)

/-! ## C5: confidence assignment -/

/-- C5 (counterexample): the user sentence "He likes my dog" does not start with
a first-person subject, yet it is classified with confidence 0.9 (not the 0.6 the
claim asserts) because `"my "` occurs mid-sentence. -/
theorem confidence_my_counterexample :
    analyze_text_for_memories "He likes my dog" "user" =
      [("preference", "He likes my dog", mkRat 9 10)] ∧
    startsWithStr (lowerStr "He likes my dog") "i " = false ∧
    mkRat 9 10 ≠ mkRat 3 5 := by
  refine ⟨by decide, by decide, by decide⟩

/-- C5 (amended): a user-authored sentence gets confidence 0.9 when it starts
with "i " OR contains "my " anywhere (0.6 otherwise); assistant-authored
sentences get a flat 0.5, which the caller scales by 0.8 to exactly 0.4. -/
theorem confidence_assignment_amended :
    (∀ (s : String) (tup : String × String × ℚ),
      tup ∈ analyze_sentence memory_categories s "user" →
      tup.2.2 = if startsWithStr (lowerStr s) "i " || strContains (lowerStr s) "my "
        then mkRat 9 10 else mkRat 3 5) ∧
    (∀ (s source : String) (tup : String × String × ℚ), source ≠ "user" →
      tup ∈ analyze_sentence memory_categories s source → tup.2.2 = mkRat 1 2) ∧
    (∀ (text : String) (tup : String × String × ℚ),
      tup ∈ analyze_text_for_memories text "ai" → tup.2.2 * mkRat 4 5 = mkRat 2 5) := by
  refine ⟨fun s tup h => ?_, fun s source tup hne h => ?_, fun text tup h => ?_⟩
  · rw [mem_analyze_sentence_conf h]
    simp [conf_for]
  · rw [mem_analyze_sentence_conf h, conf_for_nonuser hne]
  · rw [mem_analyze_text_conf_ai h]
    rw [Rat.mkRat_eq_div, Rat.mkRat_eq_div, Rat.mkRat_eq_div]
    norm_num

/-- Witness for C5 (amended): "He likes my dog" is user-authored, does not start
with "i " but contains "my ", and its emitted tuple carries confidence 9/10. -/
theorem confidence_assignment_amended_witness :
    (("preference", "He likes my dog", mkRat 9 10) ∈
      analyze_sentence memory_categories "He likes my dog" "user") ∧
    mkRat 9 10 =
      (if startsWithStr (lowerStr "He likes my dog") "i " ||
          strContains (lowerStr "He likes my dog") "my " then mkRat 9 10 else mkRat 3 5) := by
  refine ⟨by decide, ?_⟩
  exact confidence_assignment_amended.1 "He likes my dog"
    ("preference", "He likes my dog", mkRat 9 10) (by decide)

/-! ## C10: assistant-derived tuples never pass the persistence gate -/

/-- C10: every assistant-sourced tuple has confidence exactly 0.5; the caller
scales it by 0.8 to exactly 0.4, and the persistence gate demands strictly more
than 0.4, so the extract-and-store pass persists zero memories derived from the
generated reply — the outcome is identical to extracting from an empty reply. -/
theorem ai_memories_never_persisted :
    (∀ (text : String) (tup : String × String × ℚ),
      tup ∈ analyze_text_for_memories text "ai" → ¬ (tup.2.2 * mkRat 4 5 > mkRat 2 5)) ∧
    (∀ (st : StoreState) (u user_message ai_response : String) (conv : Option String)
      (now : Int),
      extract_and_store_memories st u user_message ai_response conv now =
        extract_and_store_memories st u user_message "" conv now) := by
  have hgate : ∀ (text : String) (tup : String × String × ℚ),
      tup ∈ analyze_text_for_memories text "ai" → ¬ (tup.2.2 * mkRat 4 5 > mkRat 2 5) := by
    intro text tup h
    rw [mem_analyze_text_conf_ai h]
    rw [Rat.mkRat_eq_div, Rat.mkRat_eq_div, Rat.mkRat_eq_div]
    norm_num
  refine ⟨hgate, fun st u user_message ai_response conv now => ?_⟩
  unfold extract_and_store_memories
  have hnil : analyze_text_for_memories "" "ai" = [] := by decide
  rw [hnil]
  simp only [List.map_nil, List.append_nil, List.foldl_append]
  set f := fun (acc : Nat × StoreState) (t : String × String × ℚ) =>
    if t.2.2 > mkRat 2 5 then
      let r := store_memory acc.2 u t.1 t.2.1 t.2.2 conv none (mkRat 1 2) now
      ((match r.1 with | some _ => acc.1 + 1 | none => acc.1), r.2)
    else acc with hf
  have hskip : ∀ (l : List (String × String × ℚ)) (acc : Nat × StoreState),
      (∀ t ∈ l, ¬ (t.2.2 > mkRat 2 5)) → l.foldl f acc = acc := by
    intro l
    induction l with
    | nil => intro acc _; rfl
    | cons t ts ih =>
      intro acc hall
      rw [List.foldl_cons]
      have ht : ¬ (t.2.2 > mkRat 2 5) := hall t (List.mem_cons_self t ts)
      rw [hf]
      simp only [if_neg ht]
      exact ih acc (fun x hx => hall x (List.mem_cons_of_mem t hx))
  apply hskip
  intro t ht
  obtain ⟨tup, htup, rfl⟩ := List.mem_map.mp ht
  exact hgate ai_response tup htup

/-- Witness for C10: a concrete assistant sentence ("You seem happy" matches the
emotion category) yields a tuple whose scaled confidence fails the gate, and
extracting from that reply changes nothing relative to an empty reply. -/
theorem ai_memories_never_persisted_witness :
    ¬ ((mkRat 1 2) * mkRat 4 5 > mkRat 2 5) ∧
    extract_and_store_memories ⟨[], 0, []⟩ "u" "" "You seem happy" none 0 =
      extract_and_store_memories ⟨[], 0, []⟩ "u" "" "" none 0 := by
  constructor
  · have h := ai_memories_never_persisted.1 "You seem happy"
      ("emotion", "You seem happy", mkRat 1 2) (by decide)
    simpa using h
  · exact ai_memories_never_persisted.2 ⟨[], 0, []⟩ "u" "" "You seem happy" none 0

/-! ## C1: upsert deduplication and merge -/

theorem updateFirst_append_of_none {α : Type} (p : α → Bool) (f : α → α)
    (l₁ l₂ : List α) (h : ∀ x ∈ l₁, ¬ p x) :
    updateFirst p f (l₁ ++ l₂) = l₁ ++ updateFirst p f l₂ := by
  induction l₁ with
  | nil => rfl
  | cons a as ih =>
    have ha : ¬ p a = true := by simpa using h a (List.mem_cons_self a as)
    show updateFirst p f (a :: (as ++ l₂)) = a :: (as ++ updateFirst p f l₂)
    simp only [updateFirst, if_neg ha]
    rw [ih (fun x hx => h x (List.mem_cons_of_mem a hx))]

/-- Unfolding lemma: a `store_memory` call that finds an existing record merges
into it in place. -/
theorem store_memory_merge_rows (st : StoreState) (u ty c : String) (conf : ℚ)
    (src : Option String) (cat : Option String) (imp : ℚ) (now : Int) (m0 : MemRec)
    (hfind : st.rows.find?
      (fun m => m.user_id == u && m.memory_hash == calculate_memory_hash u c) = some m0) :
    ((store_memory st u ty c conf src cat imp now).2).rows
      = updateFirst (fun m => m.user_id == u && m.memory_hash == calculate_memory_hash u c)
          (merge_memory conf imp now) st.rows := by
  simp only [store_memory, hfind]

/-- Unfolding lemma: a `store_memory` call that finds no existing record appends
a fresh row. -/
theorem store_memory_insert_rows (st : StoreState) (u ty c : String) (conf : ℚ)
    (src : Option String) (cat : Option String) (imp : ℚ) (now : Int)
    (hfind : st.rows.find?
      (fun m => m.user_id == u && m.memory_hash == calculate_memory_hash u c) = none) :
    ((store_memory st u ty c conf src cat imp now).2).rows
      = st.rows ++ [insert_memory st.next_id u ty c conf src cat imp now] := by
  simp only [store_memory, hfind]

/-- Unfolding lemma: the record returned by an inserting `store_memory` call. -/
theorem store_memory_insert_fst (st : StoreState) (u ty c : String) (conf : ℚ)
    (src : Option String) (cat : Option String) (imp : ℚ) (now : Int)
    (hfind : st.rows.find?
      (fun m => m.user_id == u && m.memory_hash == calculate_memory_hash u c) = none) :
    (store_memory st u ty c conf src cat imp now).1
      = some (insert_memory st.next_id u ty c conf src cat imp now) := by
  simp only [store_memory, hfind]

/-- C1: two upserts whose contents have equal lowercased-stripped forms, starting
from a state with no record for that (user, hash), leave exactly one record for
the hash — active, with access count 2 and confidence/importance the max of the
two calls (the second call merges instead of inserting). -/
theorem upsert_dedup_merge
    (st : StoreState) (u ty1 ty2 c1 c2 : String) (conf1 conf2 imp1 imp2 : ℚ)
    (src1 src2 : Option String) (cat1 cat2 : Option String) (now1 now2 : Int)
    (hnorm : trimStr (lowerStr c1) = trimStr (lowerStr c2))
    (hfresh : st.rows.find?
      (fun m => m.user_id == u && m.memory_hash == calculate_memory_hash u c1) = none) :
    (((store_memory ((store_memory st u ty1 c1 conf1 src1 cat1 imp1 now1).2)
          u ty2 c2 conf2 src2 cat2 imp2 now2).2).rows.filter
        (fun m => m.user_id == u && m.memory_hash == calculate_memory_hash u c1)).map
      (fun m => (m.is_active, m.access_count, m.confidence, m.importance))
      = [(true, 2, max conf1 conf2, max imp1 imp2)] := by
  have hhash : calculate_memory_hash u c2 = calculate_memory_hash u c1 := by
    simp [calculate_memory_hash, hnorm]
  have hnomatch : ∀ x ∈ st.rows,
      ¬ (x.user_id == u && x.memory_hash == calculate_memory_hash u c1) := by
    simpa using List.find?_eq_none.mp hfresh
  set m0 : MemRec := insert_memory st.next_id u ty1 c1 conf1 src1 cat1 imp1 now1 with hm0
  have hrows1 : ((store_memory st u ty1 c1 conf1 src1 cat1 imp1 now1).2).rows
      = st.rows ++ [m0] := store_memory_insert_rows st u ty1 c1 conf1 src1 cat1 imp1 now1 hfresh
  have hpm0 : (m0.user_id == u && m0.memory_hash == calculate_memory_hash u c2) = true := by
    rw [hhash, hm0]
    simp [insert_memory]
  have hfind2 : (((store_memory st u ty1 c1 conf1 src1 cat1 imp1 now1).2).rows).find?
      (fun m => m.user_id == u && m.memory_hash == calculate_memory_hash u c2) = some m0 := by
    rw [hrows1, List.find?_append]
    have h1 : st.rows.find?
        (fun m => m.user_id == u && m.memory_hash == calculate_memory_hash u c2) = none := by
      rw [hhash]; exact hfresh
    rw [h1, Option.none_or]
    exact List.find?_cons_of_pos _ hpm0
  rw [store_memory_merge_rows _ u ty2 c2 conf2 src2 cat2 imp2 now2 m0 hfind2]
  rw [hrows1, updateFirst_append_of_none _ _ _ _
    (by rw [hhash]; exact fun x hx => hnomatch x hx)]
  have hupd1 : updateFirst
      (fun m => m.user_id == u && m.memory_hash == calculate_memory_hash u c2)
      (merge_memory conf2 imp2 now2) [m0] = [merge_memory conf2 imp2 now2 m0] := by
    simp [updateFirst, hpm0]
  rw [hupd1, List.filter_append]
  have hleft : st.rows.filter
      (fun m => m.user_id == u && m.memory_hash == calculate_memory_hash u c1) = [] := by
    rw [List.filter_eq_nil_iff]
    exact hnomatch
  rw [hleft]
  have hpmerge : ((merge_memory conf2 imp2 now2 m0).user_id == u &&
      (merge_memory conf2 imp2 now2 m0).memory_hash == calculate_memory_hash u c1) = true := by
    rw [hm0]
    simp [merge_memory, insert_memory]
  simp only [List.nil_append, List.filter_cons, hpmerge, if_pos, List.filter_nil, List.map_cons,
    List.map_nil]
  rw [hm0]
  simp [merge_memory, insert_memory]

/-- Witness for C1: a fresh store, then upserting "I love hiking" and its
renormalized duplicate " i love HIKING " yields one active record with access
count 2 and the max confidence/importance of the two calls. -/
theorem upsert_dedup_merge_witness :
    (((store_memory ((store_memory ⟨[], 0, []⟩ "u1" "preference" "I love hiking"
          (mkRat 9 10) none none (mkRat 1 2) 0).2)
          "u1" "preference" " i love HIKING " (mkRat 3 5) none none (mkRat 7 10) 5).2).rows.filter
        (fun m => m.user_id == "u1" &&
          m.memory_hash == calculate_memory_hash "u1" "I love hiking")).map
      (fun m => (m.is_active, m.access_count, m.confidence, m.importance))
      = [(true, 2, max (mkRat 9 10) (mkRat 3 5), max (mkRat 1 2) (mkRat 7 10))] :=
  upsert_dedup_merge ⟨[], 0, []⟩ "u1" "preference" "preference" "I love hiking"
    " i love HIKING " (mkRat 9 10) (mkRat 3 5) (mkRat 1 2) (mkRat 7 10) none none none none 0 5
    (by decide) (by decide)

/-! ## C3: expiry timestamps and the active-read eligibility filter -/

/-- C3: a freshly inserted memory carries `expires_at = created_at + lifespan
days` for its resolved category (365/730/180/90/30 by category, 30 for an
unknown one), and the `get_relevant_memories` eligibility filter rejects it at
every instant past that expiry. -/
theorem memory_expiry_lifespan
    (st : StoreState) (u ty c : String) (conf imp : ℚ) (src : Option String)
    (catArg : Option String) (now : Int)
    (hfresh : st.rows.find?
      (fun m => m.user_id == u && m.memory_hash == calculate_memory_hash u c) = none) :
    (∃ m : MemRec, (store_memory st u ty c conf src catArg imp now).1 = some m ∧
      m.category = catArg.getD (categorize_memory c ty) ∧
      m.created_at = now ∧
      m.expires_at = some (m.created_at +
        86400 * (lifespan_for (catArg.getD (categorize_memory c ty)) : Int)) ∧
      (∀ (t : Int) (minc : ℚ),
        now + 86400 * (lifespan_for (catArg.getD (categorize_memory c ty)) : Int) < t →
        memoryEligible u minc t m = false)) ∧
    lifespan_for "preference" = 365 ∧ lifespan_for "fact" = 730 ∧
    lifespan_for "experience" = 180 ∧ lifespan_for "goal" = 90 ∧
    lifespan_for "emotion" = 30 ∧
    (∀ cat : String, cat ∉ memory_categories.map (fun cc => cc.name) →
      lifespan_for cat = 30) := by
  refine ⟨?_, by decide, by decide, by decide, by decide, by decide, ?_⟩
  · refine ⟨insert_memory st.next_id u ty c conf src catArg imp now,
      store_memory_insert_fst st u ty c conf src catArg imp now hfresh, rfl, rfl, rfl, ?_⟩
    intro t minc ht
    simp only [memoryEligible, insert_memory]
    have : decide (t < now + 86400 * (lifespan_for (catArg.getD (categorize_memory c ty)) : Int))
        = false := by
      simp only [decide_eq_false_iff_not, not_lt]
      omega
    simp [this]
  · intro cat hcat
    have hfind : memory_categories.find? (fun cc => cc.name == cat) = none := by
      rw [List.find?_eq_none]
      intro cc hcc
      simp only [beq_iff_eq]
      intro h
      exact hcat (h ▸ List.mem_map_of_mem (fun cc => cc.name) hcc)
    simp [lifespan_for, hfind]

/-- Witness for C3: storing "I love hiking and photography" (categorized
`preference`) at time 0 sets expiry to exactly 365 days, and the eligibility
filter rejects the record one second past expiry. -/
theorem memory_expiry_lifespan_witness :
    ((store_memory ⟨[], 0, []⟩ "u1" "preference" "I love hiking and photography"
        (mkRat 9 10) none none (mkRat 1 2) 0).1.map (fun m => m.expires_at))
      = some (some (86400 * 365)) ∧
    ((store_memory ⟨[], 0, []⟩ "u1" "preference" "I love hiking and photography"
        (mkRat 9 10) none none (mkRat 1 2) 0).1.map
      (fun m => memoryEligible "u1" (mkRat 3 10) (86400 * 365 + 1) m)) = some false := by
  obtain ⟨⟨m, hm, hcat, hcr, hexp, hel⟩, -⟩ :=
    memory_expiry_lifespan ⟨[], 0, []⟩ "u1" "preference" "I love hiking and photography"
      (mkRat 9 10) (mkRat 1 2) none none 0 (by decide)
  rw [hm]
  constructor
  · show some m.expires_at = some (some (86400 * 365))
    rw [hexp, hcr]
    decide
  · show some (memoryEligible "u1" (mkRat 3 10) (86400 * 365 + 1) m) = some false
    rw [hel (86400 * 365 + 1) (mkRat 3 10) (by decide)]

/-! ## C6: persona adaptation is monotone on trust and additive on topics -/

/-- C6: the adaptation pass never decreases `trust_level` (it only applies
`min(100, trust + 10)` once the history length exceeds 20, for any in-range
trust ≤ 100) and never removes a topic already in `topics_of_interest`. -/
theorem persona_trust_monotone (s : PersonaSettings) (history : List String)
    (htrust : s.trust_level ≤ 100) :
    s.trust_level ≤ (update_persona_from_conversation s history).trust_level ∧
    (∀ t ∈ s.topics_of_interest,
      t ∈ (update_persona_from_conversation s history).topics_of_interest) := by
  constructor
  · simp only [update_persona_from_conversation]
    split
    · omega
    · exact le_refl _
  · intro t ht
    simp only [update_persona_from_conversation]
    split
    · exact ht
    · rw [List.mem_dedup]
      exact List.mem_append_left _ ht

/-- Witness for C6: trust 50 with a 21-message history rises (to 60) and the
pre-existing topic "technology" is retained. -/
theorem persona_trust_monotone_witness :
    (50 : Nat) ≤ (update_persona_from_conversation
      ⟨"casual", "balanced", ["technology"], ["spam"], 50⟩
      (List.replicate 21 "hey there")).trust_level ∧
    "technology" ∈ (update_persona_from_conversation
      ⟨"casual", "balanced", ["technology"], ["spam"], 50⟩
      (List.replicate 21 "hey there")).topics_of_interest := by
  have h := persona_trust_monotone ⟨"casual", "balanced", ["technology"], ["spam"], 50⟩
    (List.replicate 21 "hey there") (by decide)
  exact ⟨h.1, h.2 "technology" (by decide)⟩

/-! ## C8: maintenance sweep -/

/-- C8 (amended): `cleanup_old_memories(maxAgeDays)` counts in `archived` exactly
the active rows with confidence below 0.3 whose last update is older than
`maxAgeDays`; it counts in `deleted` — and permanently removes — exactly the
expired rows that were active at the START of the sweep (the sessions disable
autoflush, so the expiry query does not see the first loop's deactivations, and
a row that is both archivable and expired is counted in both totals and removed
rather than surviving as an inactive row); archivable rows that are not expired
survive deactivated, untouched active rows survive unchanged, the result carries
the `(archived, deleted)` pair, and every surviving inactive row fails the
active-read eligibility filter. -/
theorem cleanup_sweep_exact (rows : List MemRec) (now : Int) (days_old : Nat)
    (hids : (rows.map (fun m => m.id)).Nodup) :
    (cleanup_old_memories rows now days_old).2.1
      = (rows.filter (arch_pred now days_old)).length ∧
    (cleanup_old_memories rows now days_old).2.2
      = (rows.filter (fun m => expired_pred now m && m.is_active)).length ∧
    (∀ m ∈ rows, arch_pred now days_old m → expired_pred now m = false →
      ({ m with is_active := false } : MemRec) ∈ (cleanup_old_memories rows now days_old).1) ∧
    (∀ m ∈ rows, m.is_active → expired_pred now m →
      ∀ r ∈ (cleanup_old_memories rows now days_old).1, r.id ≠ m.id) ∧
    (∀ m ∈ rows, m.is_active → arch_pred now days_old m = false → expired_pred now m = false →
      m ∈ (cleanup_old_memories rows now days_old).1) ∧
    (∀ r ∈ (cleanup_old_memories rows now days_old).1, r.is_active = false →
      ∀ (u : String) (minc : ℚ) (t : Int), memoryEligible u minc t r = false) := by
  refine ⟨rfl, rfl, ?_, ?_, ?_, ?_⟩
  · intro m hm harch hexp
    simp only [cleanup_old_memories]
    refine List.mem_map.mpr ⟨m, List.mem_filter.mpr ⟨hm, by simp [hexp]⟩, by simp [harch]⟩
  · intro m hm hact hexp r hr hrid
    simp only [cleanup_old_memories, List.mem_map] at hr
    obtain ⟨m2, hm2, hm2eq⟩ := hr
    rw [List.mem_filter] at hm2
    obtain ⟨hm2rows, hm2keep⟩ := hm2
    have hid2 : m2.id = m.id := by
      by_cases h2 : arch_pred now days_old m2
      · rw [if_pos h2] at hm2eq
        rw [← hm2eq] at hrid
        exact hrid
      · rw [if_neg h2] at hm2eq
        rw [← hm2eq] at hrid
        exact hrid
    have hm2m : m2 = m := List.inj_on_of_nodup_map hids hm2rows hm hid2
    subst hm2m
    rw [hexp] at hm2keep
    simp [hact] at hm2keep
  · intro m hm hact hnarch hnexp
    simp only [cleanup_old_memories]
    refine List.mem_map.mpr ⟨m, List.mem_filter.mpr ⟨hm, by simp [hnexp]⟩, by simp [hnarch]⟩
  · intro r _ hinact u minc t
    simp [memoryEligible, hinact]

/-- Witness for C8 (amended): an active memory with confidence 0.2 last updated
100 days before `now = 0` and no expiry is archived by `sweep(90)`:
`archived = 1`, it survives as an inactive row, and that row fails the
eligibility filter. -/
theorem cleanup_sweep_exact_witness :
    (cleanup_old_memories [mC8] 0 90).2.1 = 1 ∧
    ({ mC8 with is_active := false } : MemRec) ∈ (cleanup_old_memories [mC8] 0 90).1 ∧
    memoryEligible "u1" (mkRat 3 10) 0 { mC8 with is_active := false } = false := by
  have h := cleanup_sweep_exact [mC8] 0 90 (by decide)
  refine ⟨?_, ?_, ?_⟩
  · rw [h.1]; decide
  · exact h.2.2.1 mC8 (by decide) (by decide) (by decide)
  · exact h.2.2.2.2.2 _ (h.2.2.1 mC8 (by decide) (by decide) (by decide)) rfl
      "u1" (mkRat 3 10) 0

/-- C8 (counterexample): a record that is both archivable (active, confidence
0.2, last updated 100 days ago) and expired is, per the claim, deactivated and
not removed (only still-active expired records are removed, and after
deactivation it is not still active); but the sweep — whose sessions disable
autoflush — deletes it and counts it in BOTH `archived` and `deleted`, leaving
no record behind. -/
theorem cleanup_overlap_counterexample :
    arch_pred 0 90 mC8x = true ∧
    (cleanup_old_memories [mC8x] 0 90).2.1 = 1 ∧
    (cleanup_old_memories [mC8x] 0 90).2.2 = 1 ∧
    (cleanup_old_memories [mC8x] 0 90).1 = [] := by
  refine ⟨by decide, by decide, by decide, by decide⟩

/-! ## C4: generation-failure handling in the chat backends -/

theorem dictGet_map_set {β : Type} (k : String) (v : β) :
    ∀ (d : List (String × β)), d.any (fun kv => kv.1 == k) = true →
    dictGet (d.map (fun kv => if kv.1 == k then (kv.1, v) else kv)) k = some v := by
  intro d
  induction d with
  | nil => intro h; simp at h
  | cons a as ih =>
    intro hany
    by_cases hk : (a.1 == k) = true
    · simp only [List.map_cons, if_pos hk]
      unfold dictGet
      simp only [List.find?_cons, hk]
      rfl
    · have hkf : (a.1 == k) = false := by simpa using hk
      simp only [List.any_cons, hkf, Bool.false_or] at hany
      simp only [List.map_cons, if_neg hk]
      unfold dictGet
      simp only [List.find?_cons, hkf]
      simpa [dictGet] using ih hany

theorem dictGet_dictSet {β : Type} (d : List (String × β)) (k : String) (v : β) :
    dictGet (dictSet d k v) k = some v := by
  by_cases hany : d.any (fun kv => kv.1 == k) = true
  · simp only [dictSet, if_pos hany]
    exact dictGet_map_set k v d hany
  · simp only [dictSet, if_neg hany]
    have hnone : d.find? (fun kv => kv.1 == k) = none := by
      rw [List.find?_eq_none]
      intro kv hkv hcontra
      exact hany (List.any_eq_true.mpr ⟨kv, hkv, hcontra⟩)
    simp only [dictGet, List.find?_append, hnone, Option.none_or]
    simp only [List.find?_cons, beq_self_eq_true]
    rfl

theorem mem_lastN_append_last {α : Type} (l : List α) (a : α) (n : Nat) (hn : 1 ≤ n) :
    a ∈ lastN n (l ++ [a]) := by
  unfold lastN
  rcases le_or_lt ((l ++ [a]).length - n) l.length with h | h
  · rw [List.drop_append_of_le_length h]
    exact List.mem_append_right _ (List.mem_singleton.mpr rfl)
  · simp only [List.length_append, List.length_singleton] at h
    omega

theorem mem_capped_append {α : Type} (l : List α) (a : α) :
    a ∈ (if (l ++ [a]).length > 20 then lastN 20 (l ++ [a]) else l ++ [a]) := by
  split
  · exact mem_lastN_append_last l a 20 (by omega)
  · exact List.mem_append_right _ (List.mem_singleton.mpr rfl)

/-- C4 (amended): in `ai_backend.chat` a failing generation call is caught by
the inner handler: the turn returns the fixed persona-flavored fallback with
`model_used = "fallback"` (no error propagates, the handler returns normally),
and the user's message (when longer than 3 words, truncated to 100 characters)
is still persisted to the user's memory list; no assistant message is persisted.
(In `fixed_backend.chat` the store step sits after the generation call inside
the same `try`, so there the user's message is NOT persisted on failure — see
the counterexample.) -/
theorem ai_chat_failure_fallback_persists
    (st : List (String × List String)) (req : ChatRequest) (nowIso sessionStamp : String)
    (hwords : (pySplitWs req.message).length > 3) :
    (ai_chat st req true (Except.error ()) nowIso sessionStamp).1.response = aiFallbackText ∧
    (ai_chat st req true (Except.error ()) nowIso sessionStamp).1.model_used = "fallback" ∧
    ((⟨req.message.data.take 100⟩ : String) ++ "...") ∈
      ((dictGet (ai_chat st req true (Except.error ()) nowIso sessionStamp).2
        req.user_id).getD []) := by
  refine ⟨rfl, rfl, ?_⟩
  simp only [ai_chat, if_pos hwords]
  rw [dictGet_dictSet]
  simp only [Option.getD_some]
  exact mem_capped_append _ _

/-- Witness for C4 (amended): a concrete failing turn in `ai_backend.chat`
returns the fallback and still persists the (truncated) user message. -/
theorem ai_chat_failure_fallback_persists_witness :
    (ai_chat [] ⟨"u1", "I love hiking and photography today", none⟩ true
      (Except.error ()) "T0" "S0").1.response = aiFallbackText ∧
    (ai_chat [] ⟨"u1", "I love hiking and photography today", none⟩ true
      (Except.error ()) "T0" "S0").1.model_used = "fallback" ∧
    ((⟨("I love hiking and photography today" : String).data.take 100⟩ : String) ++ "...") ∈
      ((dictGet (ai_chat [] ⟨"u1", "I love hiking and photography today", none⟩ true
        (Except.error ()) "T0" "S0").2 "u1").getD []) :=
  ai_chat_failure_fallback_persists [] ⟨"u1", "I love hiking and photography today", none⟩
    "T0" "S0" (by decide)

/-- C4 (counterexample): in `fixed_backend.chat` the Groq call sits inside the
single body-wide `try`, before the memory write; a generation failure therefore
returns the fixed fallback with `model_used = "fallback"` but skips persisting
the user's message entirely — refuting the claim that the turn still persists
the user's message. -/
theorem fixed_chat_failure_skips_persistence :
    (fixed_chat ⟨[], []⟩ ⟨"u1", "I love hiking and photography today", none⟩ "T0" "S0"
      (Except.error ())).1.model_used = "fallback" ∧
    (fixed_chat ⟨[], []⟩ ⟨"u1", "I love hiking and photography today", none⟩ "T0" "S0"
      (Except.error ())).1.response = fixedFallbackText ∧
    dictGet (fixed_chat ⟨[], []⟩ ⟨"u1", "I love hiking and photography today", none⟩ "T0" "S0"
      (Except.error ())).2.memories_db "u1" = none := by
  refine ⟨rfl, rfl, rfl⟩

/-! ## C7: retrieval cap and access bookkeeping -/

theorem sortB_perm {α : Type} (cmp : α → α → Bool) (l : List α) : (sortB cmp l).Perm l :=
  List.perm_insertionSort _ l

theorem updateFirst_id_eq_map (f : MemRec → MemRec) (i : Nat) :
    ∀ rows : List MemRec, (rows.map (fun m => m.id)).Nodup →
    updateFirst (fun m => m.id == i) f rows
      = rows.map (fun m => if m.id = i then f m else m) := by
  intro rows
  induction rows with
  | nil => intro _; rfl
  | cons a as ih =>
    intro hnd
    rw [List.map_cons, List.nodup_cons] at hnd
    obtain ⟨hnotin, hnd'⟩ := hnd
    show (if (a.id == i) = true then f a :: as else a :: updateFirst (fun m => m.id == i) f as)
      = List.map (fun m => if m.id = i then f m else m) (a :: as)
    by_cases h : a.id = i
    · have hb : (a.id == i) = true := by simpa using h
      rw [if_pos hb, List.map_cons, if_pos h]
      congr 1
      have hcong : ∀ m ∈ as, (if m.id = i then f m else m) = m := by
        intro m hm
        rw [if_neg]
        intro hmi
        exact hnotin (h ▸ hmi ▸ List.mem_map_of_mem (fun m => m.id) hm)
      rw [List.map_congr_left hcong, List.map_id']
    · have hb : (a.id == i) = false := by simpa using h
      rw [hb, if_neg (by simp), List.map_cons, if_neg h, ih hnd']

theorem foldl_updateFirst_eq_map (now : Int) :
    ∀ (ids : List Nat) (rows : List MemRec),
    (rows.map (fun m => m.id)).Nodup → ids.Nodup →
    ids.foldl (fun acc i => updateFirst (fun m => m.id == i) (bumpAccess now) acc) rows
      = rows.map (fun m => if m.id ∈ ids then bumpAccess now m else m) := by
  intro ids
  induction ids with
  | nil =>
    intro rows _ _
    simp only [List.foldl_nil]
    symm
    apply List.map_id''
    intro m
    rw [if_neg (List.not_mem_nil _)]
  | cons i is ih =>
    intro rows hrows hids
    rw [List.nodup_cons] at hids
    obtain ⟨hinotin, hids'⟩ := hids
    rw [List.foldl_cons, updateFirst_id_eq_map _ _ rows hrows]
    have hrows1 : ((rows.map (fun m => if m.id = i then bumpAccess now m else m)).map
        (fun m => m.id)).Nodup := by
      rw [List.map_map]
      have hcong : ∀ m ∈ rows,
          ((fun m => m.id) ∘ (fun m => if m.id = i then bumpAccess now m else m)) m = m.id := by
        intro m _
        by_cases h : m.id = i
        · simp [h, bumpAccess]
        · simp [h]
      rw [List.map_congr_left hcong]
      exact hrows
    rw [ih _ hrows1 hids', List.map_map]
    apply List.map_congr_left
    intro m _
    simp only [Function.comp_apply]
    by_cases h1 : m.id = i
    · rw [if_pos h1]
      rw [show (bumpAccess now m).id = m.id from rfl, h1]
      rw [if_neg hinotin, if_pos (List.mem_cons_self i is)]
    · rw [if_neg h1]
      by_cases h2 : m.id ∈ is
      · rw [if_pos h2, if_pos (List.mem_cons_of_mem i h2)]
      · rw [if_neg h2, if_neg (by simp [h1, h2])]

theorem nodup_ids_filter (rows : List MemRec) (p : MemRec → Bool)
    (h : (rows.map (fun m => m.id)).Nodup) :
    ((rows.filter p).map (fun m => m.id)).Nodup :=
  List.Nodup.sublist ((List.filter_sublist rows).map (fun m => m.id)) h

theorem nodup_ids_take_sortB (cmp : MemRec → MemRec → Bool) (l : List MemRec) (limit : Nat)
    (h : (l.map (fun m => m.id)).Nodup) :
    (((sortB cmp l).take limit).map (fun m => m.id)).Nodup := by
  have hsort : ((sortB cmp l).map (fun m => m.id)).Nodup :=
    (((sortB_perm cmp l).map (fun m => m.id)).nodup_iff).mpr h
  exact List.Nodup.sublist ((List.take_sublist limit (sortB cmp l)).map (fun m => m.id)) hsort

theorem nodup_dict_ids_of (l : List MemRec) (f : MemRec → MemDict)
    (hf : ∀ r, (f r).id = r.id) (h : (l.map (fun m => m.id)).Nodup) :
    ((l.map f).map (fun d => d.id)).Nodup := by
  rw [List.map_map]
  have heq : List.map ((fun d => d.id) ∘ f) l = List.map (fun m => m.id) l :=
    List.map_congr_left (fun r _ => hf r)
  rw [heq]
  exact h

theorem select_memories_length_le (st : StoreState) (env : RetrievalEnv) (u : String)
    (q : Option String) (limit : Nat) (minc : ℚ) (now : Int) :
    (select_memories st env u q limit minc now).length ≤ limit := by
  unfold select_memories
  dsimp only
  repeat' split
  all_goals simp only [List.length_map, List.length_take, List.length_nil]
  all_goals omega

theorem select_memories_ids_nodup (st : StoreState) (env : RetrievalEnv) (u : String)
    (q : Option String) (limit : Nat) (minc : ℚ) (now : Int)
    (h : (st.rows.map (fun m => m.id)).Nodup) :
    ((select_memories st env u q limit minc now).map (fun d => d.id)).Nodup := by
  unfold select_memories
  dsimp only
  repeat' split
  all_goals first
    | exact List.nodup_nil
    | exact nodup_dict_ids_of _ _ (fun r => rfl)
        (nodup_ids_take_sortB _ _ _ (nodup_ids_filter _ _ h))
    | exact nodup_dict_ids_of _ _ (fun r => rfl)
        (nodup_ids_take_sortB _ _ _ (nodup_ids_filter _ _ (nodup_ids_filter _ _ h)))

/-- C7 (amended): on the database-backed selection paths (semantic, keyword
fallback, exception fallback, no-query ranking) the returned list has length at
most `limit` and every returned record's access count is incremented and its
last-accessed timestamp set as a side effect; but when the no-query cache fast
path hits, the cached list is returned unchanged — it is not re-capped to the
current `limit` and no access counts or timestamps are updated. -/
theorem retrieval_cap_and_access_amended (st : StoreState) (env : RetrievalEnv) (u : String)
    (q : Option String) (limit : Nat) (minc : ℚ) (now : Int)
    (hids : (st.rows.map (fun m => m.id)).Nodup) :
    (∀ cached, isFastHit st u q = some cached →
      get_relevant_memories st env u q limit minc now = (cached, st)) ∧
    (isFastHit st u q = none →
      (get_relevant_memories st env u q limit minc now).1.length ≤ limit ∧
      (∀ m ∈ st.rows,
        m.id ∈ ((get_relevant_memories st env u q limit minc now).1.map (fun d => d.id)) →
        ∃ m' ∈ ((get_relevant_memories st env u q limit minc now).2).rows,
          m'.id = m.id ∧ m'.access_count = m.access_count + 1 ∧
          m'.last_accessed = some now)) := by
  constructor
  · intro cached hc
    simp only [get_relevant_memories, hc]
  · intro hn
    refine ⟨?_, ?_⟩
    · simp only [get_relevant_memories, hn]
      exact select_memories_length_le st env u q limit minc now
    · intro m hm hmid
      simp only [get_relevant_memories, hn] at hmid ⊢
      rw [foldl_updateFirst_eq_map now _ _ hids
        (select_memories_ids_nodup st env u q limit minc now hids)]
      refine ⟨bumpAccess now m, ?_, rfl, rfl, rfl⟩
      have hmem := List.mem_map_of_mem
        (fun mm => if mm.id ∈ ((select_memories st env u q limit minc now).map (fun d => d.id))
          then bumpAccess now mm else mm) hm
      simpa only [if_pos hmid] using hmem

/-- Witness for C7 (amended): a no-query read with a cold cache returns at most
`limit` records and bumps the access count of the returned record. -/
theorem retrieval_cap_and_access_amended_witness :
    (get_relevant_memories st0C7 env0C7 "u" none 1 (mkRat 3 10) 5).1.length ≤ 1 ∧
    (∃ m' ∈ ((get_relevant_memories st0C7 env0C7 "u" none 1 (mkRat 3 10) 5).2).rows,
      m'.id = r1C7.id ∧ m'.access_count = r1C7.access_count + 1 ∧
      m'.last_accessed = some 5) := by
  have h := (retrieval_cap_and_access_amended st0C7 env0C7 "u" none 1 (mkRat 3 10) 5
    (by decide)).2 (by decide)
  exact ⟨h.1, h.2 r1C7 (by decide) (by decide)⟩

/-- C7 (counterexample): a first no-query call with `limit = 2` caches its
2-element result; a second call with `limit = 1` is served from the cache and
returns 2 records (exceeding the limit) while leaving the state — including
every access count and last-accessed timestamp — completely unchanged. -/
theorem retrieval_cache_counterexample :
    ((get_relevant_memories ((get_relevant_memories st0C7 env0C7 "u" none 2 (mkRat 3 10) 0).2)
        env0C7 "u" none 1 (mkRat 3 10) 99).1).length = 2 ∧
    ¬ (((get_relevant_memories ((get_relevant_memories st0C7 env0C7 "u" none 2 (mkRat 3 10) 0).2)
        env0C7 "u" none 1 (mkRat 3 10) 99).1).length ≤ 1) ∧
    (get_relevant_memories ((get_relevant_memories st0C7 env0C7 "u" none 2 (mkRat 3 10) 0).2)
        env0C7 "u" none 1 (mkRat 3 10) 99).2
      = (get_relevant_memories st0C7 env0C7 "u" none 2 (mkRat 3 10) 0).2 := by
  refine ⟨by decide, by decide, by decide⟩

/-! ## C9: prompt compression drops even high-confidence memory bullets -/

theorem mem_lines_iff_any_data (s : String) (lines : List String) :
    s ∈ lines ↔ lines.any (fun l => l.data == s.data) = true := by
  rw [List.any_eq_true]
  constructor
  · intro h
    exact ⟨s, h, by simp⟩
  · rintro ⟨l, hl, he⟩
    have hds : l.data = s.data := by simpa using he
    exact (String.ext hds) ▸ hl

/-- C9 (code bug, evaluated at the failing input): with one confidence-0.8
preference memory whose content pushes the assembled prompt past the 3000-word
ceiling, `build_prompt` applies compression, and the memory's bullet line —
present in the uncompressed assembly — is dropped from the final prompt, because
`build_prompt` emits bullets as `- {item}` with no `(confidence: …)` annotation
while `_compress_prompt` only keeps bullets carrying one. -/
theorem compression_drops_high_confidence_bullet :
    (c9_memories.map (fun m => m.confidence) = [mkRat 8 10]) ∧
    (pySplitWs (assemble_prompt "hello" c9_memories {} none "12:00 PM")).length > 3000 ∧
    ("- " ++ c9_longContent) ∈ linesOf (assemble_prompt "hello" c9_memories {} none "12:00 PM") ∧
    ("- " ++ c9_longContent) ∉ linesOf (build_prompt "hello" c9_memories {} none "12:00 PM") := by
  refine ⟨by decide, by decide!, ?_, ?_⟩
  · rw [mem_lines_iff_any_data]
    decide!
  · rw [mem_lines_iff_any_data]
    decide!
